import Mathlib

/-!
Shallow embedding of the `azure-sdk-keyvault` Rust crate (files
`src/client.rs` and `src/secret.rs`) and proofs about it.

Modelling conventions:
* Rust `&str`/`String` become Lean `String`.
* `chrono::DateTime<Utc>` timestamps become `Int` epoch seconds (the identity
  point in time faithful to `ts_seconds` (de)serialization); the current time
  `chrono::Utc::now()` becomes an explicit `now : Int` argument.
* The external OAuth2 exchange (`authorize_non_interactive`) becomes an
  explicit argument `exchange : Except String AadTokenResponse` supplying the
  outcome of the single exchange a call may perform.
* The external HTTP layer becomes an explicit `respond : HttpRequest → String`
  (the raw response body text), and for the resource layer the composition of
  transport and serde decoding becomes `fetch : String → Option page`.
* `&mut self` methods become functions from the client state to an outcome
  carrying the successor state.
* Rust `.unwrap()` on an `Option`/`Result` that can fail is modelled by an
  explicit `panicked` outcome constructor.
-/

/-- `PUBLIC_ENDPOINT_SUFFIX` from `client.rs`. -/
def PUBLIC_ENDPOINT_SUFFIX : String := "vault.azure.net"

/-- Modelled from the spec: the protocol constant `API_VERSION` is declared in
the crate root, which is not among the provided sources; §6 of the spec fixes
it: "every request carries query parameter `api-version=7.0`". -/
def API_VERSION : String := "7.0"

/-- Modelled from the spec: the error enum `KeyVaultError` is declared in the
crate root, which is not among the provided sources; §7 of the spec gives the
taxonomy: `AuthorizationError`, `TransportError`, `DecodeError`,
`ServiceError`, each carrying the underlying failure reason. -/
inductive KeyVaultError where
  | AuthorizationError (reason : String)
  | TransportError (reason : String)
  | DecodeError (reason : String)
  | ServiceError (reason : String)
deriving DecidableEq, Repr

/-- The client struct from `client.rs` (lifetime-borrowed `&'a str` fields
become owned strings). -/
structure KeyVaultClient where
  aad_client_id : String
  aad_client_secret : String
  aad_tenant_id : String
  keyvault_name : String
  endpoint_suffix : String
  token : Option String
  token_expiration : Option Int
deriving DecidableEq, Repr

/-- `KeyVaultClient::new_with_endpoint_suffix`. -/
def KeyVaultClient.new_with_endpoint_suffix (aad_client_id aad_client_secret
    aad_tenant_id keyvault_name endpoint_suffix : String) : KeyVaultClient :=
  { aad_client_id := aad_client_id
    aad_client_secret := aad_client_secret
    aad_tenant_id := aad_tenant_id
    keyvault_name := keyvault_name
    endpoint_suffix := endpoint_suffix
    token := none
    token_expiration := none }

/-- `KeyVaultClient::new`. -/
def KeyVaultClient.new (aad_client_id aad_client_secret aad_tenant_id
    keyvault_name : String) : KeyVaultClient :=
  KeyVaultClient.new_with_endpoint_suffix aad_client_id aad_client_secret
    aad_tenant_id keyvault_name PUBLIC_ENDPOINT_SUFFIX

/-- Modelled from the spec: `self.keyvault_endpoint` is used by `secret.rs`
but defined in the crate root, which is not among the provided sources; §6 of
the spec fixes it: HTTPS REST against
`https://(vault-name).(endpoint-suffix)`. -/
def KeyVaultClient.keyvault_endpoint (s : KeyVaultClient) : String :=
  "https://" ++ s.keyvault_name ++ "." ++ s.endpoint_suffix

/-- The guard on line 82 of `client.rs`:
`matches!(self.token_expiration, Some(exp) if exp > chrono::Utc::now())`.
The spec calls this check `is_valid`. -/
def KeyVaultClient.is_valid (s : KeyVaultClient) (now : Int) : Bool :=
  match s.token_expiration with
  | some exp => decide (now < exp)
  | none => false

/-- The relevant payload of the external AAD exchange: an access token and an
absolute expiry (`token.access_token()`, `token.expires_on`). -/
structure AadTokenResponse where
  access_token : String
  expires_on : Int
deriving DecidableEq, Repr

/-- The `anyhow` context string attached on line 96 of `client.rs` before the
underlying exchange failure reason. -/
def authFailureContext (reason : String) : String :=
  "Failed to authenticate to Azure Active Directory: " ++ reason

/-- Outcome of `KeyVaultClient::refresh_token`: the returned
`Result<(), KeyVaultError>`, the successor client state (the method takes
`&mut self`), and whether the identity exchange was performed. -/
structure RefreshOutcome where
  result : Except KeyVaultError Unit
  state : KeyVaultClient
  exchanged : Bool
deriving Repr

/-- `KeyVaultClient::refresh_token` (`client.rs` lines 81-101). If the cached
expiry is strictly after `now`, returns `Ok` at once; otherwise performs the
identity exchange, and on success stores the fresh token and expiry, on
failure returns `AuthorizationError` leaving the cache untouched. -/
def KeyVaultClient.refresh_token (s : KeyVaultClient) (now : Int)
    (exchange : Except String AadTokenResponse) : RefreshOutcome :=
  if s.is_valid now then
    { result := Except.ok (), state := s, exchanged := false }
  else
    match exchange with
    | Except.error e =>
        { result := Except.error (KeyVaultError.AuthorizationError
            (authFailureContext e))
          state := s
          exchanged := true }
    | Except.ok t =>
        { result := Except.ok ()
          state := { s with token := some t.access_token
                            token_expiration := some t.expires_on }
          exchanged := true }

/-- An outbound HTTP request as assembled by the authenticated verb helpers. -/
structure HttpRequest where
  method : String
  uri : String
  headers : List (String × String)
  body : Option String
deriving DecidableEq, Repr

/-- Outcome of an authenticated verb helper: refresh failed before any request
(`failed`), the `self.token.as_ref().unwrap()` call found no token
(`panicked`), or the request was sent and its body text returned (`sent`,
carrying the request, the successor client state and the returned body). -/
inductive AuthedOutcome where
  | panicked
  | failed (e : KeyVaultError)
  | sent (req : HttpRequest) (state : KeyVaultClient) (respBody : String)
deriving DecidableEq, Repr

/-- `KeyVaultClient::get_authed` (`client.rs` lines 103-117): refresh the
token, then GET with header `Authorization: Bearer <token>` and return the
response body text. -/
def KeyVaultClient.get_authed (s : KeyVaultClient) (now : Int)
    (exchange : Except String AadTokenResponse) (uri : String)
    (respond : HttpRequest → String) : AuthedOutcome :=
  let r := s.refresh_token now exchange
  match r.result with
  | Except.error e => AuthedOutcome.failed e
  | Except.ok _ =>
      match r.state.token with
      | none => AuthedOutcome.panicked
      | some t =>
          let req : HttpRequest :=
            { method := "GET"
              uri := uri
              headers := [("Authorization", "Bearer " ++ t)]
              body := none }
          AuthedOutcome.sent req r.state (respond req)

/-- `KeyVaultClient::put_authed` (`client.rs` lines 119-135): refresh the
token, then PUT with headers `Authorization: Bearer <token>` and
`Content-Type: application/json` and the given body. -/
def KeyVaultClient.put_authed (s : KeyVaultClient) (now : Int)
    (exchange : Except String AadTokenResponse) (uri : String) (body : String)
    (respond : HttpRequest → String) : AuthedOutcome :=
  let r := s.refresh_token now exchange
  match r.result with
  | Except.error e => AuthedOutcome.failed e
  | Except.ok _ =>
      match r.state.token with
      | none => AuthedOutcome.panicked
      | some t =>
          let req : HttpRequest :=
            { method := "PUT"
              uri := uri
              headers := [("Authorization", "Bearer " ++ t),
                          ("Content-Type", "application/json")]
              body := some body }
          AuthedOutcome.sent req r.state (respond req)

/-- Modelled from the spec: `patch_authed` is called by `secret.rs` (line 340)
but defined in a file not among the provided sources; §4.3 of the spec fixes
its behaviour: like the other verb helpers it first ensures token freshness,
then issues the PATCH with headers `Authorization: Bearer <token>` and
`Content-Type: application/json`, returning the raw response body as text. -/
def KeyVaultClient.patch_authed (s : KeyVaultClient) (now : Int)
    (exchange : Except String AadTokenResponse) (uri : String) (body : String)
    (respond : HttpRequest → String) : AuthedOutcome :=
  let r := s.refresh_token now exchange
  match r.result with
  | Except.error e => AuthedOutcome.failed e
  | Except.ok _ =>
      match r.state.token with
      | none => AuthedOutcome.panicked
      | some t =>
          let req : HttpRequest :=
            { method := "PATCH"
              uri := uri
              headers := [("Authorization", "Bearer " ++ t),
                          ("Content-Type", "application/json")]
              body := some body }
          AuthedOutcome.sent req r.state (respond req)

/-- The cache-consistency invariant: the cached token and the cached expiry
are both absent or both present. -/
def tokenConsistent (s : KeyVaultClient) : Prop :=
  s.token.isSome = s.token_expiration.isSome

instance (s : KeyVaultClient) : Decidable (tokenConsistent s) := by
  unfold tokenConsistent; infer_instance

/-! ## Resource layer (`secret.rs`)

The functions below take the vault endpoint `ep` (standing for
`self.keyvault_endpoint`) and an environment abstracting the authenticated
transport: `respond : String → String` maps a request URI to the raw body
text returned by `get_authed`, and `fetch : String → Option page` composes
that with serde decoding (`none` models a body the decoder rejects). -/

/-- `DEFAULT_GET_VERISONS_MAX_RESULTS` from `secret.rs` (sic). -/
def DEFAULT_GET_VERISONS_MAX_RESULTS : Nat := 25

/-- The `RecoveryLevel` enum from `secret.rs`. -/
inductive RecoveryLevel where
  | Purgeable
  | Recoverable
  | RecoverableAndProtectedSubscription
  | RecoverableAndPurgeable
deriving DecidableEq, Repr

/-- The `fmt::Display` impl for `RecoveryLevel` (`secret.rs` lines 24-33). -/
def RecoveryLevel.toString : RecoveryLevel → String
  | RecoveryLevel.Purgeable => "Purgeable"
  | RecoveryLevel.Recoverable => "Recoverable"
  | RecoveryLevel.RecoverableAndProtectedSubscription =>
      "Recoverable+ProtectedSubscription"
  | RecoveryLevel.RecoverableAndPurgeable => "Recoverable+Purgeable"

/-- `KeyVaultSecretBaseIdentifierAttributedRaw`: the decoded `attributes`
object of a list entry (`created`/`updated` are `ts_seconds` timestamps). -/
structure KeyVaultSecretBaseIdentifierAttributedRaw where
  enabled : Bool
  created : Int
  updated : Int
deriving DecidableEq, Repr

/-- `KeyVaultSecretBaseIdentifierRaw`: one decoded entry of a list page. -/
structure KeyVaultSecretBaseIdentifierRaw where
  id : String
  attributes : KeyVaultSecretBaseIdentifierAttributedRaw
deriving DecidableEq, Repr

/-- `KeyVaultGetSecretsResponse`: a decoded list page — the entries plus the
optional `nextLink` continuation URI. -/
structure KeyVaultGetSecretsResponse where
  value : List KeyVaultSecretBaseIdentifierRaw
  next_link : Option String
deriving DecidableEq, Repr

/-- `KeyVaultSecretBaseIdentifier`: the typed identifier returned by the list
operations. -/
structure KeyVaultSecretBaseIdentifier where
  id : String
  name : String
  enabled : Bool
  time_created : Int
  time_updated : Int
deriving DecidableEq, Repr

/-- `KeyVaultSecret`: the typed result of the get operations. -/
structure KeyVaultSecret where
  id : String
  value : String
  enabled : Bool
  time_created : Int
  time_updated : Int
deriving DecidableEq, Repr

/-- The decoded `attributes` object of a get-secret response. -/
structure KeyVaultGetSecretResponseAttributes where
  enabled : Bool
  created : Int
  updated : Int
  recovery_level : String
deriving DecidableEq, Repr

/-- `KeyVaultGetSecretResponse`: a decoded get-secret response body. -/
structure KeyVaultGetSecretResponse where
  value : String
  id : String
  attributes : KeyVaultGetSecretResponseAttributes
deriving DecidableEq, Repr

/-- Splitting a character list at `/`, keeping empty pieces, as Rust's
`str::split('/')` iterates (the empty input yields one empty piece). -/
def splitSlashAux : List Char → List Char → List (List Char)
  | [], acc => [acc.reverse]
  | c :: rest, acc =>
      if c = '/' then acc.reverse :: splitSlashAux rest []
      else splitSlashAux rest (c :: acc)

/-- The final `/`-delimited segment of a path:
`s.split("/").last().unwrap()` in the source (the split always yields at
least one piece, so the unwrap cannot fail). -/
def lastSegment (s : String) : String :=
  String.mk ((splitSlashAux s.data []).getLastD [])

/-- The map from a raw list entry to the typed identifier, as written in
`list_secrets` and `get_secret_versions` (`name` is derived from `id`). -/
def mkIdentifier (s : KeyVaultSecretBaseIdentifierRaw) :
    KeyVaultSecretBaseIdentifier :=
  { id := s.id
    name := lastSegment s.id
    enabled := s.attributes.enabled
    time_created := s.attributes.created
    time_updated := s.attributes.updated }

/-- The URI built by `get_secret_with_version` and `update_secret`:
`(endpoint)/secrets/(name)/(version)?api-version=(V)` (the
`Url::parse_with_params` call modelled as concatenation). -/
def secret_uri (ep name ver : String) : String :=
  ep ++ "/secrets/" ++ name ++ "/" ++ ver ++ "?api-version=" ++ API_VERSION

/-- The URI built by `list_secrets`:
`(endpoint)/secrets?api-version=(V)&maxresults=(n)`. -/
def secrets_list_uri (ep : String) (max_secrets : Nat) : String :=
  ep ++ "/secrets?api-version=" ++ API_VERSION ++ "&maxresults=" ++
    Nat.repr max_secrets

/-- The URI built by `get_secret_versions`:
`(endpoint)/secrets/(name)/versions?api-version=(V)&maxresults=(n)`. -/
def secret_versions_uri (ep name : String) (max_results : Nat) : String :=
  ep ++ "/secrets/" ++ name ++ "/versions?api-version=" ++ API_VERSION ++
    "&maxresults=" ++ Nat.repr max_results

/-- The URI built by `set_secret`: `(endpoint)/secrets/(name)?api-version=(V)`. -/
def set_secret_uri (ep name : String) : String :=
  ep ++ "/secrets/" ++ name ++ "?api-version=" ++ API_VERSION

/-- The `anyhow` context attached when a get-secret body fails to decode
(`secret.rs` line 135). -/
def decodeFailureContext (body : String) : String :=
  "Failed to parse response from Key Vault: " ++ body

/-- `KeyVaultClient::get_secret_with_version` (`secret.rs` lines 120-143):
build the versioned URI, GET, decode, and repackage the fields; a body the
decoder rejects is surfaced as a `DecodeError` (the `with_context(..)?` on
lines 134-135, with the error conversion of the crate root modelled from the
spec taxonomy §7). -/
def get_secret_with_version (respond : String → String)
    (decode : String → Option KeyVaultGetSecretResponse)
    (ep secret_name secret_version_name : String) :
    Except KeyVaultError KeyVaultSecret :=
  let uri := secret_uri ep secret_name secret_version_name
  let resp_body := respond uri
  match decode resp_body with
  | none => Except.error (KeyVaultError.DecodeError (decodeFailureContext resp_body))
  | some response =>
      Except.ok
        { enabled := response.attributes.enabled
          value := response.value
          time_created := response.attributes.created
          time_updated := response.attributes.updated
          id := response.id }

/-- `KeyVaultClient::get_secret` (`secret.rs` lines 106-108): delegates to
`get_secret_with_version` with the empty version segment. -/
def get_secret (respond : String → String)
    (decode : String → Option KeyVaultGetSecretResponse)
    (ep secret_name : String) : Except KeyVaultError KeyVaultSecret :=
  get_secret_with_version respond decode ep secret_name ""

/-- Outcome of an operation whose decode step is an `unwrap()` in the source:
either the unwrap panicked on an undecodable body, or a value came back. -/
inductive DecodeOutcome (α : Type) where
  | panicked
  | ok (val : α)
deriving DecidableEq, Repr

/-- `KeyVaultClient::list_secrets` (`secret.rs` lines 154-178): build the list
URI, issue one GET, decode the page with `unwrap()`, and map its entries. The
first component records the URIs fetched (exactly one); the continuation link
of the page is never consulted. -/
def list_secrets (fetch : String → Option KeyVaultGetSecretsResponse)
    (ep : String) (max_secrets : Nat) :
    List String × DecodeOutcome (List KeyVaultSecretBaseIdentifier) :=
  let uri := secrets_list_uri ep max_secrets
  ([uri],
    match fetch uri with
    | none => DecodeOutcome.panicked
    | some response => DecodeOutcome.ok (response.value.map mkIdentifier))

/-- Outcome of the pagination loop in `get_secret_versions`: the decode
`unwrap()` panicked, the fuel ran out (the source loops without bound), or
the loop finished, recording the URIs fetched in order and the accumulated
identifiers. -/
inductive LoopOut where
  | panicked
  | fuelOut
  | done (fetched : List String) (ids : List KeyVaultSecretBaseIdentifier)
deriving DecidableEq, Repr

/-- The `loop` of `get_secret_versions` (`secret.rs` lines 194-215): GET the
current URI, decode with `unwrap()`, extend the accumulator with the mapped
entries, and continue at `nextLink` if present. -/
def versionsLoop (fetch : String → Option KeyVaultGetSecretsResponse) :
    Nat → String → LoopOut
  | 0, _ => LoopOut.fuelOut
  | fuel + 1, uri =>
      match fetch uri with
      | none => LoopOut.panicked
      | some response =>
          let items := response.value.map mkIdentifier
          match response.next_link with
          | none => LoopOut.done [uri] items
          | some u =>
              match versionsLoop fetch fuel u with
              | LoopOut.done us ids => LoopOut.done (uri :: us) (items ++ ids)
              | other => other

/-- The comparator passed to `sort_by` in `get_secret_versions` (`secret.rs`
lines 218-224): `Less` when `a.time_updated > b.time_updated`, `Greater`
otherwise (it never answers `Equal`). -/
def versionsCmp (a b : KeyVaultSecretBaseIdentifier) : Ordering :=
  if b.time_updated < a.time_updated then Ordering.lt else Ordering.gt

/-- Insert an element into a list already ordered by the comparator, moving
past `b` exactly when the comparator answers `Greater`. -/
def insertByCmp {α : Type} (cmp : α → α → Ordering) (a : α) :
    List α → List α
  | [] => [a]
  | b :: l =>
      match cmp a b with
      | Ordering.gt => b :: insertByCmp cmp a l
      | _ => a :: b :: l

/-- Comparator-driven insertion sort, modelling `Vec::sort_by`: the output is
ordered so an element precedes another exactly as the comparator directs. -/
def sortByCmp {α : Type} (cmp : α → α → Ordering) : List α → List α
  | [] => []
  | a :: l => insertByCmp cmp a (sortByCmp cmp l)

/-- `KeyVaultClient::get_secret_versions` (`secret.rs` lines 180-226): run
the pagination loop starting at the versions URI, then sort the accumulated
identifiers with the descending-`updated` comparator. -/
def get_secret_versions (fetch : String → Option KeyVaultGetSecretsResponse)
    (fuel : Nat) (ep secret_name : String) : LoopOut :=
  match versionsLoop fetch fuel
      (secret_versions_uri ep secret_name DEFAULT_GET_VERISONS_MAX_RESULTS) with
  | LoopOut.done us ids => LoopOut.done us (sortByCmp versionsCmp ids)
  | other => other

/-- The items contributed by one page of the environment (empty when the page
does not decode; on a chain every page decodes). -/
def pageItems (fetch : String → Option KeyVaultGetSecretsResponse)
    (u : String) : List KeyVaultSecretBaseIdentifier :=
  match fetch u with
  | none => []
  | some p => p.value.map mkIdentifier

/-- The accumulation of every page's items along a chain of URIs. -/
def chainItems (fetch : String → Option KeyVaultGetSecretsResponse)
    (us : List String) : List KeyVaultSecretBaseIdentifier :=
  (us.map (pageItems fetch)).flatten

/-- The finite chain of page URIs reachable from `uri`: each page decodes and
yields the next URI through `nextLink`, and the last page yields none.
`none` when no such chain of length at most `n` exists. -/
def uriChain (fetch : String → Option KeyVaultGetSecretsResponse) :
    Nat → String → Option (List String)
  | 0, _ => none
  | n + 1, uri =>
      match fetch uri with
      | none => none
      | some p =>
          match p.next_link with
          | none => some [uri]
          | some u => (uriChain fetch n u).map (fun us => uri :: us)

/-! ## JSON bodies (`serde_json::Value` fragments built by `secret.rs`) -/

/-- The fragment of `serde_json::Value` the update and set operations build. -/
inductive Json where
  | str (s : String)
  | bool (b : Bool)
  | num (n : Int)
  | obj (fields : List (String × Json))
deriving Repr

mutual

/-- Serialization of the fragment, as `Value::to_string()` renders it (each
object here carries a single key, so map ordering is immaterial). -/
def Json.render : Json → String
  | Json.str s => "\"" ++ s ++ "\""
  | Json.bool b => if b then "true" else "false"
  | Json.num n => Int.repr n
  | Json.obj fields => "\x7b" ++ Json.renderFields fields ++ "\x7d"

/-- Serialization of an object's comma-separated field list. -/
def Json.renderFields : List (String × Json) → String
  | [] => ""
  | [(k, v)] => "\"" ++ k ++ "\":" ++ v.render
  | (k, v) :: rest =>
      "\"" ++ k ++ "\":" ++ v.render ++ "," ++ Json.renderFields rest

end

/-- The request body of `update_secret` (`secret.rs` lines 337-340): the
attributes map wrapped as `(\x7b"attributes": ...\x7d)`. -/
def updateSecretBody (attributes : List (String × Json)) : String :=
  (Json.obj [("attributes", Json.obj attributes)]).render

/-- `KeyVaultClient::update_secret` (`secret.rs` lines 325-344): PATCH the
versioned secret URI with the wrapped attributes map. -/
def KeyVaultClient.update_secret (s : KeyVaultClient) (now : Int)
    (exchange : Except String AadTokenResponse)
    (secret_name secret_version : String) (attributes : List (String × Json))
    (respond : HttpRequest → String) : AuthedOutcome :=
  s.patch_authed now exchange
    (secret_uri s.keyvault_endpoint secret_name secret_version)
    (updateSecretBody attributes) respond

/-- `KeyVaultClient::update_secret_enabled` (`secret.rs` lines 262-274): a
single `enabled` boolean attribute. -/
def KeyVaultClient.update_secret_enabled (s : KeyVaultClient) (now : Int)
    (exchange : Except String AadTokenResponse)
    (secret_name secret_version : String) (enabled : Bool)
    (respond : HttpRequest → String) : AuthedOutcome :=
  s.update_secret now exchange secret_name secret_version
    [("enabled", Json.bool enabled)] respond

/-- `KeyVaultClient::update_secret_recovery_level` (`secret.rs` lines
285-297): a single attribute holding the recovery-level display string (the
source inserts it under the key `"enabled"`, line 292). -/
def KeyVaultClient.update_secret_recovery_level (s : KeyVaultClient)
    (now : Int) (exchange : Except String AadTokenResponse)
    (secret_name secret_version : String) (recovery_level : RecoveryLevel)
    (respond : HttpRequest → String) : AuthedOutcome :=
  s.update_secret now exchange secret_name secret_version
    [("enabled", Json.str recovery_level.toString)] respond

/-- `KeyVaultClient::update_secret_expiration_time` (`secret.rs` lines
308-323): a single `exp` attribute holding the epoch-seconds timestamp. -/
def KeyVaultClient.update_secret_expiration_time (s : KeyVaultClient)
    (now : Int) (exchange : Except String AadTokenResponse)
    (secret_name secret_version : String) (expiration_time : Int)
    (respond : HttpRequest → String) : AuthedOutcome :=
  s.update_secret now exchange secret_name secret_version
    [("exp", Json.num expiration_time)] respond

/-- `KeyVaultClient::set_secret` (`secret.rs` lines 237-251): PUT the secret
URI with body `(\x7b"value": v\x7d)`. -/
def KeyVaultClient.set_secret (s : KeyVaultClient) (now : Int)
    (exchange : Except String AadTokenResponse)
    (secret_name new_secret_value : String)
    (respond : HttpRequest → String) : AuthedOutcome :=
  s.put_authed now exchange (set_secret_uri s.keyvault_endpoint secret_name)
    ((Json.obj [("value", Json.str new_secret_value)]).render) respond

/-! ## Concrete fixtures used by witness theorems -/

/-- A client whose cached credential is present and expires at time 10. -/
def validClient : KeyVaultClient :=
  ⟨"id", "sec", "ten", "vault", "sfx", some "tok", some 10⟩

/-- A freshly constructed client: no cached credential. -/
def staleClient : KeyVaultClient :=
  ⟨"id", "sec", "ten", "vault", "sfx", none, none⟩

/-- A two-page environment for the versions listing of secret `n` of vault
endpoint `E`. -/
def pageFetchA : String → Option KeyVaultGetSecretsResponse := fun u =>
  if u = secret_versions_uri "E" "n" DEFAULT_GET_VERISONS_MAX_RESULTS then
    some ⟨[⟨"vault/secrets/n/1", ⟨true, 0, 5⟩⟩], some "pageA2"⟩
  else if u = "pageA2" then
    some ⟨[⟨"vault/secrets/n/2", ⟨true, 0, 9⟩⟩], none⟩
  else none

/-- The chain of page URIs of `pageFetchA`. -/
def chainA : List String :=
  [secret_versions_uri "E" "n" DEFAULT_GET_VERISONS_MAX_RESULTS, "pageA2"]

/-- One raw list entry, repeated to fill pages. -/
def rawB : KeyVaultSecretBaseIdentifierRaw :=
  ⟨"vault/secrets/n/v1", ⟨true, 3, 7⟩⟩

/-- A three-page environment with page sizes 25, 25 and 10. -/
def pageFetchB : String → Option KeyVaultGetSecretsResponse := fun u =>
  if u = secret_versions_uri "E" "n" DEFAULT_GET_VERISONS_MAX_RESULTS then
    some ⟨List.replicate 25 rawB, some "pageB2"⟩
  else if u = "pageB2" then some ⟨List.replicate 25 rawB, some "pageB3"⟩
  else if u = "pageB3" then some ⟨List.replicate 10 rawB, none⟩
  else none

/-- The chain of page URIs of `pageFetchB`. -/
def chainB : List String :=
  [secret_versions_uri "E" "n" DEFAULT_GET_VERISONS_MAX_RESULTS,
   "pageB2", "pageB3"]

/-- The identifiers `get_secret_versions` returns over `pageFetchB`. -/
def idsB : List KeyVaultSecretBaseIdentifier :=
  sortByCmp versionsCmp (chainItems pageFetchB chainB)

/-- A one-page list environment whose page carries a continuation link. -/
def pageFetchC : String → Option KeyVaultGetSecretsResponse := fun u =>
  if u = secrets_list_uri "E" 10 then
    some ⟨[⟨"vault/secrets/s1", ⟨true, 1, 2⟩⟩], some "unfollowed"⟩
  else none

/-! ## Helper lemmas: the comparator and the comparator-driven sort -/

/-- The descending order the result of `get_secret_versions` is claimed to
satisfy: the later element was updated no later than the earlier one. -/
def updatedDesc (a b : KeyVaultSecretBaseIdentifier) : Prop :=
  b.time_updated ≤ a.time_updated

lemma versionsCmp_ne_eq (a b : KeyVaultSecretBaseIdentifier) :
    versionsCmp a b ≠ Ordering.eq := by
  unfold versionsCmp; split <;> simp

lemma versionsCmp_eq_gt {a b : KeyVaultSecretBaseIdentifier}
    (h : versionsCmp a b = Ordering.gt) : a.time_updated ≤ b.time_updated := by
  unfold versionsCmp at h
  by_cases hab : b.time_updated < a.time_updated
  · simp [hab] at h
  · exact le_of_not_lt hab

lemma versionsCmp_eq_lt {a b : KeyVaultSecretBaseIdentifier}
    (h : versionsCmp a b = Ordering.lt) : b.time_updated < a.time_updated := by
  unfold versionsCmp at h
  by_cases hab : b.time_updated < a.time_updated
  · exact hab
  · simp [hab] at h

lemma insertByCmp_perm {α : Type} (cmp : α → α → Ordering) (a : α)
    (l : List α) : List.Perm (insertByCmp cmp a l) (a :: l) := by
  induction l with
  | nil => simp [insertByCmp]
  | cons b t ih =>
    unfold insertByCmp
    cases hc : cmp a b with
    | gt =>
      simp only
      exact (ih.cons b).trans (List.Perm.swap a b t)
    | lt => simp
    | eq => simp

lemma sortByCmp_perm {α : Type} (cmp : α → α → Ordering) (l : List α) :
    List.Perm (sortByCmp cmp l) l := by
  induction l with
  | nil => simp [sortByCmp]
  | cons a t ih => exact (insertByCmp_perm cmp a (sortByCmp cmp t)).trans (ih.cons a)

lemma mem_insertByCmp {α : Type} {cmp : α → α → Ordering} {a x : α}
    {l : List α} (h : x ∈ insertByCmp cmp a l) : x = a ∨ x ∈ l := by
  have := (insertByCmp_perm cmp a l).mem_iff.mp h
  simpa using this

lemma pairwise_insertByCmp (a : KeyVaultSecretBaseIdentifier)
    {l : List KeyVaultSecretBaseIdentifier} (h : l.Pairwise updatedDesc) :
    (insertByCmp versionsCmp a l).Pairwise updatedDesc := by
  induction l with
  | nil => simp [insertByCmp, List.pairwise_cons]
  | cons b t ih =>
    rw [List.pairwise_cons] at h
    obtain ⟨hb, ht⟩ := h
    unfold insertByCmp
    cases hc : versionsCmp a b with
    | gt =>
      simp only
      rw [List.pairwise_cons]
      refine ⟨?_, ih ht⟩
      intro y hy
      rcases mem_insertByCmp hy with rfl | hyt
      · exact versionsCmp_eq_gt hc
      · exact hb y hyt
    | lt =>
      simp only
      rw [List.pairwise_cons]
      refine ⟨?_, List.pairwise_cons.mpr ⟨hb, ht⟩⟩
      intro y hy
      rcases List.mem_cons.mp hy with rfl | hyt
      · exact le_of_lt (versionsCmp_eq_lt hc)
      · exact le_trans (hb y hyt) (le_of_lt (versionsCmp_eq_lt hc))
    | eq => exact absurd hc (versionsCmp_ne_eq a b)

lemma pairwise_sortByCmp (l : List KeyVaultSecretBaseIdentifier) :
    (sortByCmp versionsCmp l).Pairwise updatedDesc := by
  induction l with
  | nil => simp [sortByCmp]
  | cons a t ih => exact pairwise_insertByCmp a ih

/-! ## Helper lemmas: the pagination loop -/

lemma mem_pageItems_name {fetch : String → Option KeyVaultGetSecretsResponse}
    {u : String} {x : KeyVaultSecretBaseIdentifier}
    (hx : x ∈ pageItems fetch u) : x.name = lastSegment x.id := by
  unfold pageItems at hx
  cases h : fetch u with
  | none => rw [h] at hx; simp at hx
  | some p =>
    rw [h] at hx
    obtain ⟨r, _, rfl⟩ := List.mem_map.mp hx
    rfl

lemma mem_chainItems_name {fetch : String → Option KeyVaultGetSecretsResponse}
    {us : List String} {x : KeyVaultSecretBaseIdentifier}
    (hx : x ∈ chainItems fetch us) : x.name = lastSegment x.id := by
  unfold chainItems at hx
  obtain ⟨l, hl, hxl⟩ := List.mem_flatten.mp hx
  obtain ⟨u, _, rfl⟩ := List.mem_map.mp hl
  exact mem_pageItems_name hxl

lemma versionsLoop_of_uriChain {fetch : String → Option KeyVaultGetSecretsResponse} :
    ∀ {n : Nat} {uri : String} {us : List String},
      uriChain fetch n uri = some us →
      versionsLoop fetch n uri = LoopOut.done us (chainItems fetch us) := by
  intro n
  induction n with
  | zero => intro uri us h; simp [uriChain] at h
  | succ n ih =>
    intro uri us h
    unfold uriChain at h
    unfold versionsLoop
    cases hf : fetch uri with
    | none => rw [hf] at h; simp at h
    | some p =>
      rw [hf] at h
      simp only at h ⊢
      cases hn : p.next_link with
      | none =>
        rw [hn] at h
        simp only [Option.some.injEq] at h
        subst h
        simp [chainItems, pageItems, hf]
      | some u =>
        rw [hn] at h
        simp only at h ⊢
        cases hc : uriChain fetch n u with
        | none => rw [hc] at h; simp at h
        | some us' =>
          rw [hc] at h
          simp only [Option.map_some', Option.some.injEq] at h
          subst h
          rw [ih hc]
          simp [chainItems, pageItems, hf]

lemma uriChain_length {fetch : String → Option KeyVaultGetSecretsResponse} :
    ∀ {n : Nat} {uri : String} {us : List String},
      uriChain fetch n uri = some us → us.length ≤ n := by
  intro n
  induction n with
  | zero => intro uri us h; simp [uriChain] at h
  | succ n ih =>
    intro uri us h
    unfold uriChain at h
    cases hf : fetch uri with
    | none => rw [hf] at h; simp at h
    | some p =>
      rw [hf] at h
      simp only at h
      cases hn : p.next_link with
      | none =>
        rw [hn] at h
        simp only [Option.some.injEq] at h
        subst h; simp
      | some u =>
        rw [hn] at h
        simp only at h
        cases hc : uriChain fetch n u with
        | none => rw [hc] at h; simp at h
        | some us' =>
          rw [hc] at h
          simp only [Option.map_some', Option.some.injEq] at h
          subst h
          simpa using ih hc

lemma uriChain_min_fuel {fetch : String → Option KeyVaultGetSecretsResponse} :
    ∀ {n : Nat} {uri : String} {us : List String},
      uriChain fetch n uri = some us →
      uriChain fetch us.length uri = some us := by
  intro n
  induction n with
  | zero => intro uri us h; simp [uriChain] at h
  | succ n ih =>
    intro uri us h
    unfold uriChain at h
    cases hf : fetch uri with
    | none => rw [hf] at h; simp at h
    | some p =>
      rw [hf] at h
      simp only at h
      cases hn : p.next_link with
      | none =>
        rw [hn] at h
        simp only [Option.some.injEq] at h
        subst h
        simp [uriChain, hf, hn]
      | some u =>
        rw [hn] at h
        simp only at h
        cases hc : uriChain fetch n u with
        | none => rw [hc] at h; simp at h
        | some us' =>
          rw [hc] at h
          simp only [Option.map_some', Option.some.injEq] at h
          subst h
          have := ih hc
          simp [uriChain, hf, hn, this]

lemma versionsLoop_done_inv {fetch : String → Option KeyVaultGetSecretsResponse} :
    ∀ {n : Nat} {uri : String} {us : List String}
      {ids : List KeyVaultSecretBaseIdentifier},
      versionsLoop fetch n uri = LoopOut.done us ids →
      uriChain fetch n uri = some us ∧ ids = chainItems fetch us := by
  intro n
  induction n with
  | zero => intro uri us ids h; simp [versionsLoop] at h
  | succ n ih =>
    intro uri us ids h
    unfold versionsLoop at h
    unfold uriChain
    cases hf : fetch uri with
    | none => rw [hf] at h; simp at h
    | some p =>
      rw [hf] at h
      simp only at h ⊢
      cases hn : p.next_link with
      | none =>
        rw [hn] at h
        simp only [LoopOut.done.injEq] at h
        obtain ⟨rfl, rfl⟩ := h
        simp [chainItems, pageItems, hf]
      | some u =>
        rw [hn] at h
        simp only at h ⊢
        cases hl : versionsLoop fetch n u with
        | panicked => rw [hl] at h; simp at h
        | fuelOut => rw [hl] at h; simp at h
        | done us' ids' =>
          rw [hl] at h
          simp only [LoopOut.done.injEq] at h
          obtain ⟨rfl, rfl⟩ := h
          obtain ⟨hc, hi⟩ := ih hl
          rw [hc]
          subst hi
          simp [chainItems, pageItems, hf]

lemma chainItems_length (fetch : String → Option KeyVaultGetSecretsResponse)
    (us : List String) :
    (chainItems fetch us).length =
      (us.map (fun u => (pageItems fetch u).length)).sum := by
  unfold chainItems
  rw [List.length_flatten]
  simp [List.map_map, Function.comp_def]

/-! ## Claim theorems -/

/-- C4: for every finite chain of pages in which each page yields a
`next_link` to the next and the last page yields no `next_link`,
`get_secret_versions` terminates after fetching exactly the pages of that
chain — the chain's own length already suffices as fuel — and returns the
accumulation of every page's items (as reordered by the final sort, a
permutation of the accumulation), where each returned identifier's `name`
equals the final `/`-delimited path segment of its `id`. -/
theorem thm_C4 (fetch : String → Option KeyVaultGetSecretsResponse)
    (fuel : Nat) (ep secret_name : String) (us : List String)
    (h : uriChain fetch fuel
      (secret_versions_uri ep secret_name DEFAULT_GET_VERISONS_MAX_RESULTS) =
      some us) :
    ∃ ids,
      get_secret_versions fetch fuel ep secret_name = LoopOut.done us ids ∧
      List.Perm ids (chainItems fetch us) ∧
      (∀ x ∈ ids, x.name = lastSegment x.id) ∧
      us.length ≤ fuel ∧
      get_secret_versions fetch us.length ep secret_name =
        LoopOut.done us ids := by
  refine ⟨sortByCmp versionsCmp (chainItems fetch us), ?_,
    sortByCmp_perm _ _, ?_, uriChain_length h, ?_⟩
  · unfold get_secret_versions
    rw [versionsLoop_of_uriChain h]
  · intro x hx
    exact mem_chainItems_name ((sortByCmp_perm versionsCmp _).mem_iff.mp hx)
  · unfold get_secret_versions
    rw [versionsLoop_of_uriChain (uriChain_min_fuel h)]

/-- C4 witness: a concrete two-page chain, evaluated. -/
theorem thm_C4_witness :
    ∃ ids,
      get_secret_versions pageFetchA 2 "E" "n" = LoopOut.done chainA ids ∧
      List.Perm ids (chainItems pageFetchA chainA) ∧
      (∀ x ∈ ids, x.name = lastSegment x.id) ∧
      chainA.length ≤ 2 ∧
      get_secret_versions pageFetchA chainA.length "E" "n" =
        LoopOut.done chainA ids :=
  thm_C4 pageFetchA 2 "E" "n" chainA (by decide)

/-- C5: whatever `get_secret_versions` returns is sorted by the `updated`
timestamp in descending order — every earlier element was updated no earlier
than every later one — and when the chain consists of three pages of sizes
25, 25 and 10, exactly 60 identifiers are returned. -/
theorem thm_C5 (fetch : String → Option KeyVaultGetSecretsResponse)
    (fuel : Nat) (ep secret_name : String) (us : List String)
    (ids : List KeyVaultSecretBaseIdentifier)
    (h : get_secret_versions fetch fuel ep secret_name =
      LoopOut.done us ids) :
    ids.Pairwise (fun a b => b.time_updated ≤ a.time_updated) ∧
    (us.map (fun u => (pageItems fetch u).length) = [25, 25, 10] →
      ids.length = 60) := by
  unfold get_secret_versions at h
  cases hl : versionsLoop fetch fuel
      (secret_versions_uri ep secret_name DEFAULT_GET_VERISONS_MAX_RESULTS) with
  | panicked => rw [hl] at h; simp at h
  | fuelOut => rw [hl] at h; simp at h
  | done us0 ids0 =>
    rw [hl] at h
    simp only [LoopOut.done.injEq] at h
    obtain ⟨rfl, rfl⟩ := h
    obtain ⟨hc, hi⟩ := versionsLoop_done_inv hl
    constructor
    · exact pairwise_sortByCmp ids0
    · intro hsz
      have hlen : ids0.length = 60 := by
        subst hi
        rw [chainItems_length, hsz]
        rfl
      rw [(sortByCmp_perm versionsCmp ids0).length_eq, hlen]

/-- C5 witness: a concrete 25/25/10 three-page chain, evaluated: the result
is descending in `updated` and has exactly 60 elements. -/
theorem thm_C5_witness :
    idsB.Pairwise (fun a b => b.time_updated ≤ a.time_updated) ∧
    idsB.length = 60 := by
  have h := thm_C5 pageFetchB 3 "E" "n" chainB idsB (by decide)
  exact ⟨h.1, h.2 (by decide)⟩

/-- C6: `list_secrets` issues exactly one GET (the single recorded URI) and
returns only the items of the first decoded page, never following the page's
continuation link even when one is present (`page.next_link` is arbitrary in
this statement and absent from the result). -/
theorem thm_C6 (fetch : String → Option KeyVaultGetSecretsResponse)
    (ep : String) (max_secrets : Nat) (page : KeyVaultGetSecretsResponse)
    (h : fetch (secrets_list_uri ep max_secrets) = some page) :
    list_secrets fetch ep max_secrets =
      ([secrets_list_uri ep max_secrets],
        DecodeOutcome.ok (page.value.map mkIdentifier)) := by
  simp [list_secrets, h]

/-- C6 witness: a service whose page carries a continuation link; only the
first page's items come back and only one URI was fetched. -/
theorem thm_C6_witness :
    list_secrets pageFetchC "E" 10 =
      (["E/secrets?api-version=7.0&maxresults=10"],
        DecodeOutcome.ok [⟨"vault/secrets/s1", "s1", true, 1, 2⟩]) :=
  (thm_C6 pageFetchC "E" 10
    ⟨[⟨"vault/secrets/s1", ⟨true, 1, 2⟩⟩], some "unfollowed"⟩
    (by decide)).trans (by decide)

/-- C9: `get_secret name` is the very call `get_secret_with_version name ""`
— same URI with an empty version segment, same request, same result. -/
theorem thm_C9 (respond : String → String)
    (decode : String → Option KeyVaultGetSecretResponse)
    (ep secret_name : String) :
    get_secret respond decode ep secret_name =
      get_secret_with_version respond decode ep secret_name "" ∧
    secret_uri ep secret_name "" =
      ep ++ "/secrets/" ++ secret_name ++ "/?api-version=" ++ API_VERSION :=
  ⟨rfl, by
    apply String.ext
    simp [secret_uri, String.data_append, API_VERSION]⟩

/-- C8 counterexample: on an undecodable body, `list_secrets` and
`get_secret_versions` do not return a `DecodeError` — the decode `unwrap()`
panics (their outcome types have no error case at all). -/
theorem thm_C8_counterexample :
    (list_secrets (fun _ => none) "E" 10).2 = DecodeOutcome.panicked ∧
    get_secret_versions (fun _ => none) 1 "E" "n" = LoopOut.panicked := by
  decide

/-- C8 as amended: on a response body that does not decode,
`get_secret_with_version` returns a `DecodeError` carrying the offending
body, but `list_secrets` and `get_secret_versions` panic on their decode
`unwrap()` instead of returning a `DecodeError` (and return nothing — not a
silently-empty result). -/
theorem thm_C8 (respond : String → String)
    (decode : String → Option KeyVaultGetSecretResponse)
    (ep secret_name secret_version : String)
    (h1 : decode (respond (secret_uri ep secret_name secret_version)) = none)
    (fetch : String → Option KeyVaultGetSecretsResponse)
    (max_secrets fuel : Nat)
    (h2 : fetch (secrets_list_uri ep max_secrets) = none)
    (h3 : fetch (secret_versions_uri ep secret_name
      DEFAULT_GET_VERISONS_MAX_RESULTS) = none) :
    get_secret_with_version respond decode ep secret_name secret_version =
      Except.error (KeyVaultError.DecodeError
        (decodeFailureContext (respond (secret_uri ep secret_name secret_version)))) ∧
    (list_secrets fetch ep max_secrets).2 = DecodeOutcome.panicked ∧
    get_secret_versions fetch (fuel + 1) ep secret_name = LoopOut.panicked := by
  refine ⟨?_, ?_, ?_⟩
  · simp [get_secret_with_version, h1]
  · simp [list_secrets, h2]
  · simp [get_secret_versions, versionsLoop, h3]

/-- C8 witness: a concrete undecodable environment, evaluated. -/
theorem thm_C8_witness :
    get_secret_with_version (fun _ => "bad body") (fun _ => none) "E" "n" "v" =
      Except.error (KeyVaultError.DecodeError (decodeFailureContext "bad body")) ∧
    (list_secrets (fun _ => none) "E" 7).2 = DecodeOutcome.panicked ∧
    get_secret_versions (fun _ => none) 1 "E" "n" = LoopOut.panicked :=
  thm_C8 (fun _ => "bad body") (fun _ => none) "E" "n" "v" rfl
    (fun _ => none) 7 0 rfl rfl

/-- C1: under the cache-consistency invariant, the cached credential is valid
iff a credential exists and its expiry is strictly after the current time; a
credential whose expiry equals the current time is invalid; and when the
cached expiry is strictly after `now`, `refresh_token` returns `Ok` without
performing any identity exchange and without changing the cached token or
expiry. -/
theorem thm_C1 (s : KeyVaultClient) (now : Int)
    (exchange : Except String AadTokenResponse) :
    (tokenConsistent s →
      (s.is_valid now = true ↔
        s.token.isSome = true ∧
        ∃ exp, s.token_expiration = some exp ∧ now < exp)) ∧
    (∀ exp, s.token_expiration = some exp → s.is_valid exp = false) ∧
    (∀ exp, s.token_expiration = some exp → now < exp →
      s.refresh_token now exchange =
        { result := Except.ok (), state := s, exchanged := false }) := by
  refine ⟨?_, ?_, ?_⟩
  · intro hwf
    unfold KeyVaultClient.is_valid
    cases he : s.token_expiration with
    | none => simp
    | some exp =>
      have htok : s.token.isSome = true := by
        unfold tokenConsistent at hwf
        rw [he] at hwf
        simpa using hwf
      simp [htok]
  · intro exp he
    unfold KeyVaultClient.is_valid
    rw [he]
    simp
  · intro exp he hlt
    have hv : s.is_valid now = true := by
      unfold KeyVaultClient.is_valid
      rw [he]
      simpa using hlt
    simp [KeyVaultClient.refresh_token, hv]

/-- C1 witness: a client whose credential expires at 10, evaluated at times 5
(valid, refresh is a no-op) and 10 (invalid). -/
theorem thm_C1_witness :
    KeyVaultClient.is_valid validClient 5 = true ∧
    KeyVaultClient.is_valid validClient 10 = false ∧
    KeyVaultClient.refresh_token validClient 5 (Except.error "x") =
      { result := Except.ok (), state := validClient, exchanged := false } := by
  refine ⟨((thm_C1 validClient 5 (Except.error "x")).1 (by decide)).mpr
      ⟨by decide, 10, rfl, by decide⟩, ?_, ?_⟩
  · exact (thm_C1 validClient 10 (Except.error "x")).2.1 10 rfl
  · exact (thm_C1 validClient 5 (Except.error "x")).2.2 10 rfl (by decide)

/-- C3: if the identity exchange fails, `refresh_token` leaves the credential
cache exactly as it was — never a torn value — and, whenever the exchange was
actually performed, returns an `AuthorizationError` carrying the underlying
failure reason. -/
theorem thm_C3 (s : KeyVaultClient) (now : Int) (reason : String) :
    (s.refresh_token now (Except.error reason)).state = s ∧
    ((s.refresh_token now (Except.error reason)).exchanged = true →
      (s.refresh_token now (Except.error reason)).result =
        Except.error (KeyVaultError.AuthorizationError
          (authFailureContext reason))) := by
  unfold KeyVaultClient.refresh_token
  by_cases hv : s.is_valid now <;> simp [hv]

/-- C3 witness: a failed exchange on a credential-less client, evaluated. -/
theorem thm_C3_witness :
    (KeyVaultClient.refresh_token staleClient 0 (Except.error "boom")).state =
      staleClient ∧
    (KeyVaultClient.refresh_token staleClient 0 (Except.error "boom")).result =
      Except.error (KeyVaultError.AuthorizationError
        (authFailureContext "boom")) :=
  ⟨(thm_C3 staleClient 0 "boom").1, (thm_C3 staleClient 0 "boom").2 rfl⟩

/-- C2: each authenticated verb helper first ensures token freshness — a
failed refresh aborts the call with no request, a successful refresh yields
the state whose token is used — and the issued request carries
`Authorization: Bearer <token>`, PUT and PATCH additionally
`Content-Type: application/json`, the response body being returned as text.
(An `HttpRequest` literal reads method, URI, headers, body.) -/
theorem thm_C2 (s : KeyVaultClient) (now : Int)
    (exchange : Except String AadTokenResponse) (uri body : String)
    (respond : HttpRequest → String) :
    (∀ e, (s.refresh_token now exchange).result = Except.error e →
      s.get_authed now exchange uri respond = AuthedOutcome.failed e ∧
      s.put_authed now exchange uri body respond = AuthedOutcome.failed e ∧
      s.patch_authed now exchange uri body respond = AuthedOutcome.failed e) ∧
    (∀ t, (s.refresh_token now exchange).result = Except.ok () →
      (s.refresh_token now exchange).state.token = some t →
      s.get_authed now exchange uri respond =
        AuthedOutcome.sent
          ⟨"GET", uri, [("Authorization", "Bearer " ++ t)], none⟩
          (s.refresh_token now exchange).state
          (respond ⟨"GET", uri, [("Authorization", "Bearer " ++ t)], none⟩) ∧
      s.put_authed now exchange uri body respond =
        AuthedOutcome.sent
          ⟨"PUT", uri,
            [("Authorization", "Bearer " ++ t),
             ("Content-Type", "application/json")], some body⟩
          (s.refresh_token now exchange).state
          (respond ⟨"PUT", uri,
            [("Authorization", "Bearer " ++ t),
             ("Content-Type", "application/json")], some body⟩) ∧
      s.patch_authed now exchange uri body respond =
        AuthedOutcome.sent
          ⟨"PATCH", uri,
            [("Authorization", "Bearer " ++ t),
             ("Content-Type", "application/json")], some body⟩
          (s.refresh_token now exchange).state
          (respond ⟨"PATCH", uri,
            [("Authorization", "Bearer " ++ t),
             ("Content-Type", "application/json")], some body⟩)) := by
  constructor
  · intro e he
    refine ⟨?_, ?_, ?_⟩ <;>
      simp [KeyVaultClient.get_authed, KeyVaultClient.put_authed,
        KeyVaultClient.patch_authed, he]
  · intro t hok ht
    refine ⟨?_, ?_, ?_⟩ <;>
      simp [KeyVaultClient.get_authed, KeyVaultClient.put_authed,
        KeyVaultClient.patch_authed, hok, ht]

/-- C2 witness: a client with a valid cached token, evaluated through all
three verb helpers. -/
theorem thm_C2_witness :
    KeyVaultClient.get_authed validClient 5 (Except.error "x") "u"
      (fun r => r.uri) =
      AuthedOutcome.sent
        ⟨"GET", "u", [("Authorization", "Bearer " ++ "tok")], none⟩
        validClient "u" ∧
    KeyVaultClient.put_authed validClient 5 (Except.error "x") "u" "b"
      (fun r => r.uri) =
      AuthedOutcome.sent
        ⟨"PUT", "u",
          [("Authorization", "Bearer " ++ "tok"),
           ("Content-Type", "application/json")], some "b"⟩
        validClient "u" ∧
    KeyVaultClient.patch_authed validClient 5 (Except.error "x") "u" "b"
      (fun r => r.uri) =
      AuthedOutcome.sent
        ⟨"PATCH", "u",
          [("Authorization", "Bearer " ++ "tok"),
           ("Content-Type", "application/json")], some "b"⟩
        validClient "u" :=
  (thm_C2 validClient 5 (Except.error "x") "u" "b" (fun r => r.uri)).2
    "tok" rfl rfl

/-- C7: each single-attribute update issues a PATCH to the versioned secret
URI whose JSON body wraps an attributes object carrying exactly the one field
built by the operation — the `enabled` boolean, the recovery-level display
string, or `exp` as epoch seconds — and in particular the disable call sends
exactly the body `(\x7b"attributes":\x7b"enabled":false\x7d\x7d)`.
(An `HttpRequest` literal reads method, URI, headers, body.) -/
theorem thm_C7 (s : KeyVaultClient) (now : Int)
    (exchange : Except String AadTokenResponse)
    (secret_name secret_version : String) (enabled : Bool)
    (recovery_level : RecoveryLevel) (expiration_time : Int)
    (respond : HttpRequest → String) (t : String)
    (hok : (s.refresh_token now exchange).result = Except.ok ())
    (ht : (s.refresh_token now exchange).state.token = some t) :
    s.update_secret_enabled now exchange secret_name secret_version enabled
      respond =
      AuthedOutcome.sent
        ⟨"PATCH", secret_uri s.keyvault_endpoint secret_name secret_version,
          [("Authorization", "Bearer " ++ t),
           ("Content-Type", "application/json")],
          some (updateSecretBody [("enabled", Json.bool enabled)])⟩
        (s.refresh_token now exchange).state
        (respond
          ⟨"PATCH", secret_uri s.keyvault_endpoint secret_name secret_version,
            [("Authorization", "Bearer " ++ t),
             ("Content-Type", "application/json")],
            some (updateSecretBody [("enabled", Json.bool enabled)])⟩) ∧
    s.update_secret_recovery_level now exchange secret_name secret_version
      recovery_level respond =
      AuthedOutcome.sent
        ⟨"PATCH", secret_uri s.keyvault_endpoint secret_name secret_version,
          [("Authorization", "Bearer " ++ t),
           ("Content-Type", "application/json")],
          some (updateSecretBody
            [("enabled", Json.str recovery_level.toString)])⟩
        (s.refresh_token now exchange).state
        (respond
          ⟨"PATCH", secret_uri s.keyvault_endpoint secret_name secret_version,
            [("Authorization", "Bearer " ++ t),
             ("Content-Type", "application/json")],
            some (updateSecretBody
              [("enabled", Json.str recovery_level.toString)])⟩) ∧
    s.update_secret_expiration_time now exchange secret_name secret_version
      expiration_time respond =
      AuthedOutcome.sent
        ⟨"PATCH", secret_uri s.keyvault_endpoint secret_name secret_version,
          [("Authorization", "Bearer " ++ t),
           ("Content-Type", "application/json")],
          some (updateSecretBody [("exp", Json.num expiration_time)])⟩
        (s.refresh_token now exchange).state
        (respond
          ⟨"PATCH", secret_uri s.keyvault_endpoint secret_name secret_version,
            [("Authorization", "Bearer " ++ t),
             ("Content-Type", "application/json")],
            some (updateSecretBody [("exp", Json.num expiration_time)])⟩) ∧
    updateSecretBody [("enabled", Json.bool false)] =
      "\x7b\"attributes\":\x7b\"enabled\":false\x7d\x7d" := by
  refine ⟨?_, ?_, ?_, by decide⟩ <;>
    simp [KeyVaultClient.update_secret_enabled,
      KeyVaultClient.update_secret_recovery_level,
      KeyVaultClient.update_secret_expiration_time,
      KeyVaultClient.update_secret, KeyVaultClient.patch_authed, hok, ht]

/-- C7 witness: the disable update evaluated on a client with a valid cached
token, and the exact JSON body it sends. -/
theorem thm_C7_witness :
    KeyVaultClient.update_secret_enabled validClient 5 (Except.error "x")
      "n" "v" false (fun _ => "resp") =
      AuthedOutcome.sent
        ⟨"PATCH", secret_uri validClient.keyvault_endpoint "n" "v",
          [("Authorization", "Bearer " ++ "tok"),
           ("Content-Type", "application/json")],
          some (updateSecretBody [("enabled", Json.bool false)])⟩
        validClient "resp" ∧
    updateSecretBody [("enabled", Json.bool false)] =
      "\x7b\"attributes\":\x7b\"enabled\":false\x7d\x7d" :=
  ⟨(thm_C7 validClient 5 (Except.error "x") "n" "v" false
      RecoveryLevel.Purgeable 0 (fun _ => "resp") "tok" rfl rfl).1,
   (thm_C7 validClient 5 (Except.error "x") "n" "v" false
      RecoveryLevel.Purgeable 0 (fun _ => "resp") "tok" rfl rfl).2.2.2⟩

/-- C10: the cached token and expiry are both absent at construction and both
present or both absent in every state reachable through `refresh_token`;
whenever `refresh_token` returns `Ok` the token is present, so the token
unwrap inside `get_authed`/`put_authed` never panics. -/
theorem thm_C10 :
    (∀ a b c d e,
      tokenConsistent (KeyVaultClient.new_with_endpoint_suffix a b c d e)) ∧
    (∀ a b c d, tokenConsistent (KeyVaultClient.new a b c d)) ∧
    (∀ (s : KeyVaultClient) (now : Int)
      (ex : Except String AadTokenResponse), tokenConsistent s →
      tokenConsistent (s.refresh_token now ex).state) ∧
    (∀ (s : KeyVaultClient) (now : Int)
      (ex : Except String AadTokenResponse), tokenConsistent s →
      (s.refresh_token now ex).result = Except.ok () →
      (s.refresh_token now ex).state.token.isSome = true) ∧
    (∀ (s : KeyVaultClient) (now : Int) (ex : Except String AadTokenResponse)
      (uri : String) (respond : HttpRequest → String), tokenConsistent s →
      s.get_authed now ex uri respond ≠ AuthedOutcome.panicked) ∧
    (∀ (s : KeyVaultClient) (now : Int) (ex : Except String AadTokenResponse)
      (uri body : String) (respond : HttpRequest → String),
      tokenConsistent s →
      s.put_authed now ex uri body respond ≠ AuthedOutcome.panicked) := by
  have htok : ∀ (s : KeyVaultClient) (now : Int)
      (ex : Except String AadTokenResponse), tokenConsistent s →
      (s.refresh_token now ex).result = Except.ok () →
      (s.refresh_token now ex).state.token.isSome = true := by
    intro s now ex h hok
    unfold KeyVaultClient.refresh_token
    by_cases hv : s.is_valid now
    · simp only [hv, if_true]
      unfold KeyVaultClient.is_valid at hv
      unfold tokenConsistent at h
      cases he : s.token_expiration with
      | none => rw [he] at hv; simp at hv
      | some exp => rw [he] at h; simpa using h
    · cases ex with
      | error e => simp [KeyVaultClient.refresh_token, hv] at hok
      | ok tk => simp [hv]
  refine ⟨?_, ?_, ?_, htok, ?_, ?_⟩
  · intro a b c d e
    simp [tokenConsistent, KeyVaultClient.new_with_endpoint_suffix]
  · intro a b c d
    simp [tokenConsistent, KeyVaultClient.new,
      KeyVaultClient.new_with_endpoint_suffix]
  · intro s now ex h
    unfold KeyVaultClient.refresh_token
    by_cases hv : s.is_valid now
    · simpa [hv]
    · cases ex with
      | error e => simpa [hv]
      | ok tk => simp [hv, tokenConsistent]
  · intro s now ex uri respond h
    unfold KeyVaultClient.get_authed
    cases hres : (s.refresh_token now ex).result with
    | error e => simp [hres]
    | ok u =>
      have hsome := htok s now ex h (by rw [hres])
      cases hu : (s.refresh_token now ex).state.token with
      | none => rw [hu] at hsome; simp at hsome
      | some t => simp [hres, hu]
  · intro s now ex uri body respond h
    unfold KeyVaultClient.put_authed
    cases hres : (s.refresh_token now ex).result with
    | error e => simp [hres]
    | ok u =>
      have hsome := htok s now ex h (by rw [hres])
      cases hu : (s.refresh_token now ex).state.token with
      | none => rw [hu] at hsome; simp at hsome
      | some t => simp [hres, hu]

/-- C10 witness: the invariant at a fresh client, and non-panicking calls on
a consistent client, evaluated. -/
theorem thm_C10_witness :
    tokenConsistent (KeyVaultClient.new "a" "b" "c" "d") ∧
    KeyVaultClient.get_authed validClient 5 (Except.error "x") "u"
      (fun _ => "body") ≠ AuthedOutcome.panicked ∧
    KeyVaultClient.put_authed validClient 5 (Except.error "x") "u" "b"
      (fun _ => "body") ≠ AuthedOutcome.panicked :=
  ⟨thm_C10.2.1 "a" "b" "c" "d",
   thm_C10.2.2.2.2.1 validClient 5 (Except.error "x") "u" (fun _ => "body")
     (by decide),
   thm_C10.2.2.2.2.2 validClient 5 (Except.error "x") "u" "b"
     (fun _ => "body") (by decide)⟩
